import Mathlib

/-!
Verification of the opencode-browser Local Broker (the newline-delimited
JSON multiplexer in the repository that owns the tab-ownership table, the
pending-call table and the request router).  Every definition below is a
shallow embedding of the corresponding JavaScript function of the broker
source; machine-level JavaScript details that matter (truthiness of 0 and
of the empty string, typeof-number guards, Map get/set/delete semantics)
are modelled explicitly.  JavaScript strings are Lean strings, JavaScript
numbers appearing as tab identifiers are Lean integers, and a possibly
absent (undefined or non-numeric) field is an Option.
-/

namespace Broker

/-- One entry of the tab-ownership table: the JS object with fields
sessionId and claimedAt stored by setClaim.  The sessionId may be the JS
value undefined (modelled as none); claimedAt is the timestamp taken at
claim time (nowIso modelled as a natural number supplied by the caller). -/
structure ClaimInfo where
  sessionId : Option String
  claimedAt : Nat
deriving DecidableEq, Repr

/-- The claims Map of the broker: tabId to ClaimInfo, modelled as an
association list in insertion order (JS Map iteration order). -/
abbrev ClaimMap := List (Int × ClaimInfo)

/-- JS Map.get: the value stored at the key, if any. -/
def mapGet (m : ClaimMap) (k : Int) : Option ClaimInfo :=
  (m.find? (fun p => p.1 = k)).map (fun p => p.2)

/-- JS Map.set: overwrite in place if the key exists, else append. -/
def mapSet (m : ClaimMap) (k : Int) (v : ClaimInfo) : ClaimMap :=
  match m with
  | [] => [(k, v)]
  | p :: rest => if p.1 = k then (k, v) :: rest else p :: mapSet rest k v

/-- JS Map.delete restricted to what the broker needs. -/
def mapDelete (m : ClaimMap) (k : Int) : ClaimMap :=
  m.filter (fun p => ¬ p.1 = k)

/-- String interpolation of a possibly-undefined session id, as a JS
template literal renders it. -/
def sidStr : Option String → String
  | some s => s
  | none => "undefined"

/-- The ownership-conflict message produced by checkClaim and the
claim_tab / release_tab operations. -/
def conflictMsg (tabId : Int) (owner : Option String) : String :=
  "Tab " ++ toString tabId ++ " is owned by another OpenCode session (" ++ sidStr owner ++ ")"

/-- checkClaim of the broker: allowed when the tab is unclaimed or claimed
by the acting session, otherwise an error naming the current owner. -/
def checkClaim (claims : ClaimMap) (tabId : Int) (sessionId : Option String) :
    Except String Unit :=
  match mapGet claims tabId with
  | none => .ok ()
  | some existing =>
      if existing.sessionId = sessionId then .ok ()
      else .error (conflictMsg tabId existing.sessionId)

/-- setClaim of the broker: store the acting session with a fresh
timestamp. -/
def setClaim (claims : ClaimMap) (tabId : Int) (sessionId : Option String) (now : Nat) :
    ClaimMap :=
  mapSet claims tabId ⟨sessionId, now⟩

/-- releaseClaimsForSession of the broker: drop every claim whose owner is
the given session id (a concrete string at the call sites). -/
def releaseClaimsForSession (claims : ClaimMap) (sessionId : String) : ClaimMap :=
  claims.filter (fun p => ¬ p.2.sessionId = some sessionId)

/-- The claim_tab operation of handleClientMessage.  Input tabId is the
msg.tabId field when it is a number (the typeof guard), force is the
coerced msg.force.  Returns the reply outcome together with the claims
table afterwards (unchanged on failure). -/
def claimTabOp (claims : ClaimMap) (tabId? : Option Int) (force : Bool)
    (sessionId : Option String) (now : Nat) : Except String Unit × ClaimMap :=
  match tabId? with
  | none => (.error "tabId is required", claims)
  | some tabId =>
      match mapGet claims tabId with
      | some existing =>
          if ¬ existing.sessionId = sessionId ∧ ¬ force then
            (.error (conflictMsg tabId existing.sessionId), claims)
          else (.ok (), setClaim claims tabId sessionId now)
      | none => (.ok (), setClaim claims tabId sessionId now)

/-- The release_tab operation of handleClientMessage: no-op success when
unclaimed, conflict error when owned by another session, otherwise the
claim is removed.  The Bool reports the released flag of the reply. -/
def releaseTabOp (claims : ClaimMap) (tabId? : Option Int) (sessionId : Option String) :
    Except String Bool × ClaimMap :=
  match tabId? with
  | none => (.error "tabId is required", claims)
  | some tabId =>
      match mapGet claims tabId with
      | none => (.ok false, claims)
      | some existing =>
          if existing.sessionId = sessionId then (.ok true, mapDelete claims tabId)
          else (.error (conflictMsg tabId existing.sessionId), claims)

deriving instance DecidableEq for Except

/-- Result payload of a bridge tool_response, as far as the broker reads
it: an optional numeric tabId field (typeof-number guarded) plus opaque
data it forwards verbatim. -/
structure ExtResult where
  tabId? : Option Int
  data : Nat
deriving DecidableEq, Repr

/-- Behaviour of the downstream bridge for one forwarded call: given the
tool name and the tabId field sent in the arguments, the eventual outcome
of that pending call (a result, or a rejection such as a bridge error
payload, the sixty-second timeout, or a mid-call disconnect). -/
abbrev Bridge := String → Option Int → Except String ExtResult

/-- Error message thrown by ensureHost when no live bridge socket exists. -/
def hostOfflineMsg : String := "Chrome extension is not connected (native host offline)"

/-- wantsTab of the broker: every tool except the two listed resource-exempt
ones requires a target tab. -/
def wantsTab (toolName : String) : Bool :=
  ¬ (toolName = "get_tabs" ∨ toolName = "get_active_tab")

/-- Outcome of one handleTool run.  The forwarded list records every
tool_request actually sent to the bridge, in order, as pairs of tool
name and the tabId field of the sent arguments.  resolvedTab mirrors the
local variable tabId of handleTool after the resolution step, and
usedTabId mirrors the local usedTabId (meaningful on success). -/
structure ToolOutcome where
  result : Except String ExtResult
  forwarded : List (String × Option Int)
  claims : ClaimMap
  resolvedTab : Option Int
  usedTabId : Option Int
deriving DecidableEq, Repr

/-- The first-touch block at the end of handleTool: if the effective tab
exists and is currently unclaimed, claim it for the requesting session;
an existing claim is never touched. -/
def autoClaimStep (claims : ClaimMap) (used? : Option Int) (sessionId : Option String)
    (now : Nat) : ClaimMap :=
  match used? with
  | some t =>
      match mapGet claims t with
      | none => setClaim claims t sessionId now
      | some _ => claims
  | none => claims

/-- resolveActiveTab of the broker: an exempt get_active_tab call to the
bridge; its result must carry a truthy numeric tabId (zero is falsy in JS
and is rejected by the if-not-tabId guard), else the distinct
could-not-determine error.  Returns the outcome plus the calls forwarded. -/
def resolveActiveTab (hostUp : Bool) (bridge : Bridge) :
    Except String Int × List (String × Option Int) :=
  if hostUp then
    match bridge "get_active_tab" none with
    | .error e => (.error e, [("get_active_tab", none)])
    | .ok res =>
        match res.tabId? with
        | some t =>
            if t = 0 then (.error "Could not determine active tab", [("get_active_tab", none)])
            else (.ok t, [("get_active_tab", none)])
        | none => (.error "Could not determine active tab", [("get_active_tab", none)])
  else (.error hostOfflineMsg, [])

/-- The effective tab of a successful handleTool run: the numeric tabId
echoed in the result when present, else the tabId resolved before the
call was forwarded (the usedTabId expression of the source). -/
def usedTab (resTab : Option Int) (tabId? : Option Int) : Option Int :=
  match resTab with
  | some u => some u
  | none => tabId?

/-- The forwarding tail of handleTool: callExtension (ensureHost, then the
call with tabId spread into the arguments) followed by the first-touch
auto-claim on the effective tab echoed by the result or resolved before. -/
def forwardCall (hostUp : Bool) (bridge : Bridge) (claims : ClaimMap) (toolName : String)
    (tabId? : Option Int) (sessionId : Option String) (now : Nat)
    (fwds : List (String × Option Int)) : ToolOutcome :=
  if hostUp then
    match bridge toolName tabId? with
    | .error e => ⟨.error e, fwds ++ [(toolName, tabId?)], claims, tabId?, none⟩
    | .ok res =>
        ⟨.ok res, fwds ++ [(toolName, tabId?)],
          autoClaimStep claims (usedTab res.tabId? tabId?) sessionId now,
          tabId?, usedTab res.tabId? tabId?⟩
  else ⟨.error hostOfflineMsg, fwds, claims, tabId?, none⟩

/-- The ownership gate of handleTool for a resolved tab: checkClaim, then
forward on success. -/
def afterResolve (hostUp : Bool) (bridge : Bridge) (claims : ClaimMap) (toolName : String)
    (t : Int) (sessionId : Option String) (now : Nat)
    (fwds : List (String × Option Int)) : ToolOutcome :=
  match checkClaim claims t sessionId with
  | .error e => ⟨.error e, fwds, claims, some t, none⟩
  | .ok _ => forwardCall hostUp bridge claims toolName (some t) sessionId now fwds

/-- handleTool of the broker.  toolName is the tool field of the request
(undefined modelled as the empty string, which the if-not-tool guard
rejects identically); argsTabId is args.tabId when it is a number. -/
def handleTool (hostUp : Bool) (bridge : Bridge) (claims : ClaimMap) (toolName : String)
    (argsTabId : Option Int) (sessionId : Option String) (now : Nat) : ToolOutcome :=
  if toolName = "" then ⟨.error "Missing tool", [], claims, none, none⟩
  else if wantsTab toolName then
    match argsTabId with
    | some t => afterResolve hostUp bridge claims toolName t sessionId now []
    | none =>
        match resolveActiveTab hostUp bridge with
        | (.error e, fwds) => ⟨.error e, fwds, claims, none, none⟩
        | (.ok t, fwds) => afterResolve hostUp bridge claims toolName t sessionId now fwds
  else forwardCall hostUp bridge claims toolName argsTabId sessionId now []

/-! Pending-call table (extPending, nextExtId, and the three ways an entry
is consumed: a matching tool_response, the sixty-second timer, or the bulk
failure on bridge disconnect).  The resolve and reject callbacks of the
source are modelled by an append-only log of invocations, so that the
exactly-once guarantee is the absence of duplicate call identifiers in the
log of any reachable state. -/

/-- How a pending call ended: resolved with a result, rejected with a
bridge error payload, rejected by the timeout, or rejected because the
native host disconnected. -/
inductive PendOutcome where
  | resolved
  | rejectedError
  | timedOut
  | disconnected
deriving DecidableEq, Repr

/-- State of the pending-call machinery: the nextExtId counter, the key
set of the extPending Map in insertion order, and the log of callback
invocations performed so far. -/
structure PendState where
  nextExtId : Nat
  pending : List Nat
  log : List (Nat × PendOutcome)
deriving DecidableEq, Repr

/-- Startup state of the broker process: counter at zero, no pending
calls, no callback ever invoked. -/
def pendStart : PendState := ⟨0, [], []⟩

/-- Events touching the pending-call table, in the order the single event
loop serialises them: a registration inside callExtension, an incoming
tool_response carrying an id, a timer firing for an id, or the close of
the authoritative host socket. -/
inductive PendEvent where
  | register
  | respond (id : Nat) (isError : Bool)
  | timeoutFire (id : Nat)
  | hostClose
deriving DecidableEq, Repr

/-- One event-loop step of the pending-call machinery, translated from the
source: respond and timeoutFire first look the id up and are a no-op when
it is absent, and otherwise delete the entry before invoking (logging) the
callback; hostClose deletes and rejects every entry. -/
def pendStep (s : PendState) : PendEvent → PendState
  | .register => ⟨s.nextExtId + 1, s.pending ++ [s.nextExtId + 1], s.log⟩
  | .respond id isError =>
      if id ∈ s.pending then
        ⟨s.nextExtId, s.pending.erase id,
          s.log ++ [(id, if isError then PendOutcome.rejectedError else PendOutcome.resolved)]⟩
      else s
  | .timeoutFire id =>
      if id ∈ s.pending then
        ⟨s.nextExtId, s.pending.erase id, s.log ++ [(id, PendOutcome.timedOut)]⟩
      else s
  | .hostClose =>
      ⟨s.nextExtId, [], s.log ++ s.pending.map (fun i => (i, PendOutcome.disconnected))⟩

/-- The call identifiers whose callbacks have been invoked so far, in
invocation order. -/
def pendLogIds (s : PendState) : List Nat := s.log.map Prod.fst

/-- Invariant of the pending-call machinery: the table holds distinct
ids, no callback has run twice, every id ever seen came from the counter,
and no id is simultaneously pending and already fired. -/
def PendInv (s : PendState) : Prop :=
  s.pending.Nodup ∧ (pendLogIds s).Nodup ∧
  (∀ i ∈ s.pending, i ≤ s.nextExtId) ∧
  (∀ i ∈ pendLogIds s, i ≤ s.nextExtId) ∧
  (∀ i ∈ s.pending, i ∉ pendLogIds s)

/-- The broker's host reference: absent, or a socket that may have been
destroyed. -/
structure HostRef where
  destroyed : Bool
deriving DecidableEq, Repr

/-- The condition ensureHost tests: a host reference exists and its socket
is not destroyed. -/
def hostConnected : Option HostRef → Bool
  | none => false
  | some h => ¬ h.destroyed

/-- The entry to callExtension: ensureHost throws the bridge-offline error
before anything is registered; otherwise a fresh id is allocated and the
entry stored. -/
def tryRegister (hostUp : Bool) (s : PendState) : Except String Unit × PendState :=
  if hostUp then (.ok (), pendStep s .register) else (.error hostOfflineMsg, s)

/-- A connected client as the broker tracks it: the role and session id
recorded at the hello handshake (both possibly never set). -/
structure ClientInfo where
  role : String
  sessionId : Option String
deriving DecidableEq, Repr

/-- What the socket close handler did: whether the host reference was
cleared, the pending ids remaining, the rejections performed (id and
message), and the ownership table afterwards. -/
structure CloseOutcome where
  hostCleared : Bool
  pendingAfter : List Nat
  rejected : List (Nat × String)
  claimsAfter : ClaimMap
deriving DecidableEq, Repr

/-- The socket close handler of the broker.  isAuthHostSocket models the
test that a host reference exists and its socket is the closing one.  The
final line of the handler releases the claims of the closing client's
session id whenever that id is truthy, whatever the client's role. -/
def onSocketClose (client : ClientInfo) (isAuthHostSocket : Bool)
    (pending : List Nat) (claims : ClaimMap) : CloseOutcome :=
  let hostPart : Bool × List Nat × List (Nat × String) :=
    if client.role = "native-host" ∧ isAuthHostSocket then
      (true, [], pending.map (fun i => (i, "Native host disconnected")))
    else (false, pending, [])
  let claimsAfter : ClaimMap :=
    match client.sessionId with
    | some s => if s = "" then claims else releaseClaimsForSession claims s
    | none => claims
  ⟨hostPart.1, hostPart.2.1, hostPart.2.2, claimsAfter⟩

/-! Session request dispatch (the request branch of handleClientMessage). -/

/-- A JavaScript value appearing in the id field of a request: a number or
something else such as a string (the dispatcher demands a number). -/
inductive JVal where
  | num (n : Int)
  | str (s : String)
deriving DecidableEq, Repr

/-- The fields of a message of type request that the broker reads.  tabId?
and argsTabId are the respective fields when they are numbers; force is
the doubly-negated msg.force. -/
structure RequestMsg where
  id? : Option JVal
  op : Option String
  tabId? : Option Int
  force : Bool
  sessionId? : Option String
  tool : Option String
  argsTabId : Option Int
deriving DecidableEq, Repr

/-- A response line written back to the session: the echoed id, the ok
flag, and the error string when ok is false (the data payload of
successful replies is not needed by any property and is omitted). -/
structure Response where
  id : Int
  ok : Bool
  error : Option String
deriving DecidableEq, Repr

/-- The acting session id of a request: msg.sessionId or-else the
handshake session id, with JavaScript truthiness (the empty string falls
back too). -/
def effectiveSession (msgSid : Option String) (clientSid : Option String) : Option String :=
  match msgSid with
  | some s => if s = "" then clientSid else some s
  | none => clientSid

/-- Rendering of the op field inside the unknown-op message, as a JS
template literal does it. -/
def opName : Option String → String
  | some s => s
  | none => "undefined"

/-- The request branch of handleClientMessage: only a message whose id is
a number is dispatched at all; the ops are tried in source order and an
unrecognized op is rejected synchronously.  Returns the responses written
for this message (in order) and the ownership table afterwards. -/
def handleRequest (hostUp : Bool) (bridge : Bridge) (claims : ClaimMap)
    (clientSid : Option String) (msg : RequestMsg) (now : Nat) :
    List Response × ClaimMap :=
  match msg.id? with
  | some (JVal.num rid) =>
      let sid := effectiveSession msg.sessionId? clientSid
      if msg.op = some "status" then ([⟨rid, true, none⟩], claims)
      else if msg.op = some "list_claims" then ([⟨rid, true, none⟩], claims)
      else if msg.op = some "claim_tab" then
        match claimTabOp claims msg.tabId? msg.force sid now with
        | (.ok _, claims2) => ([⟨rid, true, none⟩], claims2)
        | (.error e, claims2) => ([⟨rid, false, some e⟩], claims2)
      else if msg.op = some "release_tab" then
        match releaseTabOp claims msg.tabId? sid with
        | (.ok _, claims2) => ([⟨rid, true, none⟩], claims2)
        | (.error e, claims2) => ([⟨rid, false, some e⟩], claims2)
      else if msg.op = some "tool" then
        match handleTool hostUp bridge claims
            (match msg.tool with | some t => t | none => "") msg.argsTabId sid now with
        | ⟨.ok _, _, claims2, _, _⟩ => ([⟨rid, true, none⟩], claims2)
        | ⟨.error e, _, claims2, _, _⟩ => ([⟨rid, false, some e⟩], claims2)
      else ([⟨rid, false, some ("Unknown op: " ++ opName msg.op)⟩], claims)
  | _ => ([], claims)

/-! The newline-delimited JSON reader (createJsonLineParser of the source):
a character stream is cut at every newline; each complete line that is not
whitespace-only is handed to JSON.parse, whose failures are swallowed.
JSON.parse itself is a platform primitive and is a parameter here; a line
on which it throws is modelled as none. -/

/-- Cut a character sequence at every newline: the completed lines in
order, and the trailing characters after the last newline (the buffer kept
for the next chunk). -/
def splitLines : List Char → List (List Char) × List Char
  | [] => ([], [])
  | c :: rest =>
      if c = '\n' then ([] :: (splitLines rest).1, (splitLines rest).2)
      else
        match splitLines rest with
        | ([], buf) => ([], c :: buf)
        | (l :: ls, buf) => ((c :: l) :: ls, buf)

/-- Whitespace as String.prototype.trim sees it (the characters that can
occur in this protocol; trim also strips rarer Unicode space characters,
which changes nothing below because the lines are parameters). -/
def jsWhitespace (c : Char) : Bool :=
  c = ' ' ∨ c = '\t' ∨ c = '\n' ∨ c = '\r' ∨ c = '\x0B' ∨ c = '\x0C' ∨ c = ' '

/-- A line whose trim is empty (falsy), skipped by the reader. -/
def isBlank (l : List Char) : Bool := l.all jsWhitespace

/-- One data-event of the reader: append the chunk to the buffer, consume
every complete line, skip blank lines, deliver each line JSON.parse
accepts, swallow the rest.  Returns the new buffer and the messages
delivered, in order. -/
def feedChunk {α : Type} (parse : List Char → Option α) (buf : List Char) (chunk : List Char) :
    List Char × List α :=
  ((splitLines (buf ++ chunk)).2,
    ((splitLines (buf ++ chunk)).1.filter (fun l => !isBlank l)).filterMap parse)

/-- The messages a whole character sequence yields when processed in one
piece: its complete lines, blank ones skipped, the rest filtered through
JSON.parse. -/
def emitted {α : Type} (parse : List Char → Option α) (s : List Char) : List α :=
  ((splitLines s).1.filter (fun l => !isBlank l)).filterMap parse

/-- All messages delivered over the lifetime of a connection receiving the
given chunks in order, starting from the empty buffer. -/
def feedAll {α : Type} (parse : List Char → Option α) (chunks : List (List Char)) : List α :=
  (chunks.foldl (fun acc chunk =>
      ((feedChunk parse acc.1 chunk).1, acc.2 ++ (feedChunk parse acc.1 chunk).2))
    (([] : List Char), ([] : List α))).2

/-! Concrete fixtures used to evaluate the development on closed inputs. -/

/-- A bridge whose every call succeeds echoing tab 3. -/
def bridgeEcho3 : Bridge := fun _ _ => Except.ok ⟨some 3, 0⟩

/-- A bridge that reports tab 0 as the active tab and echoes no tab
otherwise. -/
def bridgeActiveZero : Bridge := fun toolName _ =>
  if toolName = "get_active_tab" then Except.ok ⟨some 0, 0⟩ else Except.ok ⟨none, 0⟩

/-- A bridge that reports tab 9 as the active tab and echoes no tab
otherwise. -/
def bridgeActive9 : Bridge := fun toolName _ =>
  if toolName = "get_active_tab" then Except.ok ⟨some 9, 0⟩ else Except.ok ⟨none, 7⟩

/-! Supporting lemmas. -/

theorem mapGet_mapSet_self (m : ClaimMap) (k : Int) (v : ClaimInfo) :
    mapGet (mapSet m k v) k = some v := by
  induction m with
  | nil => simp [mapGet, mapSet, List.find?]
  | cons p rest ih =>
      by_cases h : p.1 = k
      · simp [mapSet, h, mapGet, List.find?]
      · simpa [mapSet, h, mapGet, List.find?] using ih

theorem mapGet_mapSet_other (m : ClaimMap) (k j : Int) (v : ClaimInfo) (hkj : j ≠ k) :
    mapGet (mapSet m k v) j = mapGet m j := by
  induction m with
  | nil => simp [mapGet, mapSet, List.find?, Ne.symm hkj]
  | cons p rest ih =>
      by_cases h : p.1 = k
      · by_cases hj : p.1 = j
        · exact absurd (hj.symm.trans h) hkj
        · simp [mapSet, h, mapGet, List.find?, hj, Ne.symm hkj]
      · by_cases hj : p.1 = j
        · simp [mapSet, h, mapGet, List.find?, hj, hkj]
        · simpa [mapSet, h, mapGet, List.find?, hj, hkj] using ih

theorem forwardCall_ok (hostUp : Bool) (bridge : Bridge) (claims : ClaimMap)
    (toolName : String) (tabId? : Option Int) (sid : Option String) (now : Nat)
    (fwds : List (String × Option Int)) (res : ExtResult)
    (hok : (forwardCall hostUp bridge claims toolName tabId? sid now fwds).result = .ok res) :
    forwardCall hostUp bridge claims toolName tabId? sid now fwds =
      ⟨.ok res, fwds ++ [(toolName, tabId?)],
        autoClaimStep claims (usedTab res.tabId? tabId?) sid now,
        tabId?, usedTab res.tabId? tabId?⟩ := by
  unfold forwardCall at hok ⊢
  cases hostUp with
  | false => simp at hok
  | true =>
      cases hbr : bridge toolName tabId? with
      | error e => simp [hbr] at hok
      | ok r =>
          simp only [hbr, if_true] at hok ⊢
          cases hok
          rfl

theorem afterResolve_ok (hostUp : Bool) (bridge : Bridge) (claims : ClaimMap)
    (toolName : String) (t : Int) (sid : Option String) (now : Nat)
    (fwds : List (String × Option Int)) (res : ExtResult)
    (hok : (afterResolve hostUp bridge claims toolName t sid now fwds).result = .ok res) :
    afterResolve hostUp bridge claims toolName t sid now fwds =
      forwardCall hostUp bridge claims toolName (some t) sid now fwds := by
  unfold afterResolve at hok ⊢
  cases hchk : checkClaim claims t sid with
  | error e => simp [hchk] at hok
  | ok u => simp [hchk]

theorem handleTool_ok_factor (hostUp : Bool) (bridge : Bridge) (claims : ClaimMap)
    (toolName : String) (argsTabId : Option Int) (sid : Option String) (now : Nat)
    (res : ExtResult)
    (hok : (handleTool hostUp bridge claims toolName argsTabId sid now).result = .ok res) :
    ∃ tabId? fwds,
      handleTool hostUp bridge claims toolName argsTabId sid now =
        forwardCall hostUp bridge claims toolName tabId? sid now fwds := by
  unfold handleTool at hok ⊢
  by_cases hname : toolName = ""
  · simp [hname] at hok
  · simp only [hname, if_false] at hok ⊢
    by_cases hw : wantsTab toolName
    · simp only [hw, if_true] at hok ⊢
      cases argsTabId with
      | some t => exact ⟨some t, [], afterResolve_ok _ _ _ _ _ _ _ _ _ hok⟩
      | none =>
          cases hres : resolveActiveTab hostUp bridge with
          | mk r fwds =>
              cases r with
              | error e => simp [hres] at hok
              | ok t =>
                  simp only [hres] at hok ⊢
                  exact ⟨some t, fwds, afterResolve_ok _ _ _ _ _ _ _ _ _ hok⟩
    · simp only [hw, if_false] at hok ⊢
      exact ⟨argsTabId, [], rfl⟩

theorem conflictMsg_ne_cnd (t : Int) (o : Option String) :
    ¬ conflictMsg t o = "Could not determine active tab" := by
  intro h
  have hd := congrArg (fun s => s.data.head?) h
  simp [conflictMsg, String.data_append] at hd

theorem checkClaim_error_ne_cnd (claims : ClaimMap) (t : Int) (sid : Option String) (e : String)
    (he : checkClaim claims t sid = .error e) : ¬ e = "Could not determine active tab" := by
  unfold checkClaim at he
  cases hget : mapGet claims t with
  | none => simp [hget] at he
  | some ex =>
      simp only [hget] at he
      by_cases hs : ex.sessionId = sid
      · simp [hs] at he
      · simp only [hs, if_false] at he
        cases he
        exact conflictMsg_ne_cnd t ex.sessionId

theorem forwardCall_resolvedTab (hostUp : Bool) (bridge : Bridge) (claims : ClaimMap)
    (toolName : String) (tabId? : Option Int) (sid : Option String) (now : Nat)
    (fwds : List (String × Option Int)) :
    (forwardCall hostUp bridge claims toolName tabId? sid now fwds).resolvedTab = tabId? := by
  unfold forwardCall
  cases hostUp with
  | false => simp
  | true => cases bridge toolName tabId? with
      | error e => simp
      | ok res => simp

theorem forwardCall_forwarded (hostUp : Bool) (bridge : Bridge) (claims : ClaimMap)
    (toolName : String) (tabId? : Option Int) (sid : Option String) (now : Nat)
    (fwds : List (String × Option Int)) :
    (forwardCall hostUp bridge claims toolName tabId? sid now fwds).forwarded = fwds ∨
    (forwardCall hostUp bridge claims toolName tabId? sid now fwds).forwarded =
      fwds ++ [(toolName, tabId?)] := by
  unfold forwardCall
  cases hostUp with
  | false => simp
  | true => cases bridge toolName tabId? with
      | error e => simp
      | ok res => simp

theorem forwardCall_result_not_cnd (hostUp : Bool) (bridge : Bridge) (claims : ClaimMap)
    (toolName : String) (tabId? : Option Int) (sid : Option String) (now : Nat)
    (fwds : List (String × Option Int))
    (hdist : ∀ tl x, ¬ bridge tl x = .error "Could not determine active tab") :
    ¬ (forwardCall hostUp bridge claims toolName tabId? sid now fwds).result =
        .error "Could not determine active tab" := by
  unfold forwardCall
  cases hostUp with
  | false =>
      intro h
      rw [if_neg (by decide : ¬ (false = true))] at h
      exact absurd (Except.error.inj h) (by decide)
  | true =>
      cases hbr : bridge toolName tabId? with
      | error e =>
          intro h
          injection h with h1
          cases h1
          exact hdist toolName tabId? hbr
      | ok res => simp

theorem afterResolve_resolvedTab (hostUp : Bool) (bridge : Bridge) (claims : ClaimMap)
    (toolName : String) (t : Int) (sid : Option String) (now : Nat)
    (fwds : List (String × Option Int)) :
    (afterResolve hostUp bridge claims toolName t sid now fwds).resolvedTab = some t := by
  unfold afterResolve
  cases checkClaim claims t sid with
  | error e => simp
  | ok u => exact forwardCall_resolvedTab hostUp bridge claims toolName (some t) sid now fwds

theorem afterResolve_forwarded (hostUp : Bool) (bridge : Bridge) (claims : ClaimMap)
    (toolName : String) (t : Int) (sid : Option String) (now : Nat)
    (fwds : List (String × Option Int)) :
    (afterResolve hostUp bridge claims toolName t sid now fwds).forwarded = fwds ∨
    (afterResolve hostUp bridge claims toolName t sid now fwds).forwarded =
      fwds ++ [(toolName, some t)] := by
  unfold afterResolve
  cases checkClaim claims t sid with
  | error e => simp
  | ok u => exact forwardCall_forwarded hostUp bridge claims toolName (some t) sid now fwds

theorem afterResolve_result_not_cnd (hostUp : Bool) (bridge : Bridge) (claims : ClaimMap)
    (toolName : String) (t : Int) (sid : Option String) (now : Nat)
    (fwds : List (String × Option Int))
    (hdist : ∀ tl x, ¬ bridge tl x = .error "Could not determine active tab") :
    ¬ (afterResolve hostUp bridge claims toolName t sid now fwds).result =
        .error "Could not determine active tab" := by
  unfold afterResolve
  cases hchk : checkClaim claims t sid with
  | error e =>
      intro h
      simp only at h
      cases h
      exact checkClaim_error_ne_cnd claims t sid _ hchk rfl
  | ok u => exact forwardCall_result_not_cnd hostUp bridge claims toolName (some t) sid now fwds hdist

theorem resolveActiveTab_error_cnd (hostUp : Bool) (bridge : Bridge)
    (fwds : List (String × Option Int))
    (hdist : ∀ tl x, ¬ bridge tl x = .error "Could not determine active tab")
    (herr : resolveActiveTab hostUp bridge = (.error "Could not determine active tab", fwds)) :
    hostUp = true ∧ ∃ res, bridge "get_active_tab" none = .ok res ∧
      (res.tabId? = none ∨ res.tabId? = some 0) := by
  unfold resolveActiveTab at herr
  cases hostUp with
  | false =>
      rw [if_neg (by decide : ¬ (false = true))] at herr
      injection herr with h1 h2
      exact absurd (Except.error.inj h1) (by decide)
  | true =>
      refine ⟨rfl, ?_⟩
      cases hbr : bridge "get_active_tab" none with
      | error e =>
          simp only [hbr, if_true] at herr
          injection herr with h1 h2
          injection h1 with h3
          cases h3
          exact absurd hbr (hdist _ _)
      | ok res =>
          refine ⟨res, rfl, ?_⟩
          simp only [hbr, if_true] at herr
          cases hres : res.tabId? with
          | none => exact Or.inl rfl
          | some u =>
              simp only [hres] at herr
              by_cases hu : u = 0
              · exact Or.inr (by rw [hu])
              · simp [hu] at herr

/-! Claim theorems. -/

/-- C1: for every tool request the bridge answers successfully, the
effective tab is the numeric tabId echoed in the result when present and
otherwise the tab resolved before forwarding; an effective tab with no
owner is auto-claimed for the requesting session, while an effective tab
with any existing owner leaves the ownership table (its sessionId and
claimedAt included) completely unchanged; and the auto-claim also runs
for the resource-exempt tools whenever their result carries a numeric
tabId. -/
theorem c1_effective_tab_auto_claim (hostUp : Bool) (bridge : Bridge) (claims : ClaimMap)
    (toolName : String) (argsTabId : Option Int) (sid : Option String) (now : Nat)
    (res : ExtResult)
    (hok : (handleTool hostUp bridge claims toolName argsTabId sid now).result = Except.ok res) :
    (∀ t, res.tabId? = some t →
        (handleTool hostUp bridge claims toolName argsTabId sid now).usedTabId = some t) ∧
    (res.tabId? = none →
        (handleTool hostUp bridge claims toolName argsTabId sid now).usedTabId =
          (handleTool hostUp bridge claims toolName argsTabId sid now).resolvedTab) ∧
    (∀ t, (handleTool hostUp bridge claims toolName argsTabId sid now).usedTabId = some t →
        mapGet claims t = none →
        (handleTool hostUp bridge claims toolName argsTabId sid now).claims =
          setClaim claims t sid now) ∧
    (∀ t c, (handleTool hostUp bridge claims toolName argsTabId sid now).usedTabId = some t →
        mapGet claims t = some c →
        (handleTool hostUp bridge claims toolName argsTabId sid now).claims = claims) ∧
    ((handleTool hostUp bridge claims toolName argsTabId sid now).usedTabId = none →
        (handleTool hostUp bridge claims toolName argsTabId sid now).claims = claims) ∧
    (wantsTab toolName = false → ∀ t, res.tabId? = some t → mapGet claims t = none →
        (handleTool hostUp bridge claims toolName argsTabId sid now).claims =
          setClaim claims t sid now) := by
  obtain ⟨tabId?, fwds, hfac⟩ :=
    handleTool_ok_factor hostUp bridge claims toolName argsTabId sid now res hok
  rw [hfac] at hok ⊢
  rw [forwardCall_ok hostUp bridge claims toolName tabId? sid now fwds res hok]
  refine ⟨?_, ?_, ?_, ?_, ?_, ?_⟩
  · intro t ht; simp [usedTab, ht]
  · intro ht; simp [usedTab, ht]
  · intro t ht hn
    simp only at ht
    simp [autoClaimStep, ht, hn, setClaim]
  · intro t c ht hc
    simp only at ht
    simp [autoClaimStep, ht, hc]
  · intro ht
    simp only at ht
    simp [autoClaimStep, ht]
  · intro _ t ht hn
    simp [autoClaimStep, usedTab, ht, hn, setClaim]

/-- Witness for c1_effective_tab_auto_claim: the exempt get_tabs tool,
answered by a bridge echoing tab 3, auto-claims tab 3 for the requesting
session. -/
theorem c1_effective_tab_auto_claim_witness :
    (handleTool true bridgeEcho3 [] "get_tabs" none (some "A") 5).claims =
      setClaim [] 3 (some "A") 5 :=
  (c1_effective_tab_auto_claim true bridgeEcho3 [] "get_tabs" none (some "A") 5
      ⟨some 3, 0⟩ (by decide)).2.2.2.2.2 (by decide) 3 (by decide) (by decide)

/-- C3: a non-exempt tool request whose target tab (explicit, or resolved
through the active-tab discovery call) is owned by a different session
fails with the ownership-conflict error naming the current owner, the
ownership table is untouched, and nothing is forwarded to the bridge
beyond the exempt discovery call itself. -/
theorem c3_conflict_blocks_forward (hostUp : Bool) (bridge : Bridge) (claims : ClaimMap)
    (toolName : String) (sid : Option String) (now : Nat)
    (hname : ¬ toolName = "") (hw : wantsTab toolName = true) :
    (∀ t c, mapGet claims t = some c → ¬ c.sessionId = sid →
        handleTool hostUp bridge claims toolName (some t) sid now =
          ⟨.error (conflictMsg t c.sessionId), [], claims, some t, none⟩) ∧
    (∀ t c res, hostUp = true → bridge "get_active_tab" none = .ok res →
        res.tabId? = some t → ¬ t = 0 → mapGet claims t = some c → ¬ c.sessionId = sid →
        handleTool hostUp bridge claims toolName none sid now =
          ⟨.error (conflictMsg t c.sessionId), [("get_active_tab", none)], claims,
            some t, none⟩) := by
  constructor
  · intro t c hget hne
    simp [handleTool, hname, hw, afterResolve, checkClaim, hget, hne]
  · intro t c res hhost hbr hres ht0 hget hne
    simp [handleTool, hname, hw, resolveActiveTab, hhost, hbr, hres, ht0,
      afterResolve, checkClaim, hget, hne]

/-- Witness for c3_conflict_blocks_forward: session B targeting tab 7
owned by A is rejected naming A with nothing forwarded, both with an
explicit tab and with one resolved through discovery. -/
theorem c3_conflict_blocks_forward_witness :
    handleTool true bridgeEcho3 [(7, ⟨some "A", 0⟩)] "click" (some 7) (some "B") 1 =
      ⟨.error (conflictMsg 7 (some "A")), [], [(7, ⟨some "A", 0⟩)], some 7, none⟩ ∧
    handleTool true bridgeActive9 [(9, ⟨some "A", 0⟩)] "click" none (some "B") 1 =
      ⟨.error (conflictMsg 9 (some "A")), [("get_active_tab", none)], [(9, ⟨some "A", 0⟩)],
        some 9, none⟩ :=
  ⟨(c3_conflict_blocks_forward true bridgeEcho3 [(7, ⟨some "A", 0⟩)] "click" (some "B") 1
      (by decide) (by decide)).1 7 ⟨some "A", 0⟩ (by decide) (by decide),
   (c3_conflict_blocks_forward true bridgeActive9 [(9, ⟨some "A", 0⟩)] "click" (some "B") 1
      (by decide) (by decide)).2 9 ⟨some "A", 0⟩ ⟨some 9, 0⟩ rfl (by decide) (by decide)
      (by decide) (by decide) (by decide)⟩

/-- C7 counterexample: the claim promises that whenever the bridge's
discovery result contains a numeric tabId the request proceeds targeting
that tab, and that the could-not-determine error appears only when no tab
can be determined from either source.  With the bridge reporting the
numeric tabId 0 (falsy in JavaScript), the request instead fails with the
could-not-determine error and nothing beyond the discovery call is
forwarded. -/
theorem c7_counterexample :
    bridgeActiveZero "get_active_tab" none = Except.ok ⟨some 0, 0⟩ ∧
    (handleTool true bridgeActiveZero [] "click" none (some "A") 1).result =
      Except.error "Could not determine active tab" ∧
    (handleTool true bridgeActiveZero [] "click" none (some "A") 1).forwarded =
      [("get_active_tab", none)] := by
  refine ⟨?_, ?_, ?_⟩ <;> decide

/-- C7 (amended): for a non-exempt tool request the target tab is the
explicit numeric tabId from args when present; otherwise, whenever the
discovery result carries a nonzero numeric tabId, the request proceeds
targeting that tab (every forwarded tool call names it); and — for a
bridge whose own rejection payloads are distinct from the
could-not-determine string — that error occurs only when args held no
numeric tabId and the discovery result carried no nonzero numeric tabId. -/
theorem c7_target_resolution (hostUp : Bool) (bridge : Bridge) (claims : ClaimMap)
    (toolName : String) (argsTabId : Option Int) (sid : Option String) (now : Nat)
    (hname : ¬ toolName = "") (hw : wantsTab toolName = true)
    (hdist : ∀ tl x, ¬ bridge tl x = Except.error "Could not determine active tab") :
    (∀ t, argsTabId = some t →
        (handleTool hostUp bridge claims toolName argsTabId sid now).resolvedTab = some t ∧
        (∀ x, (toolName, x) ∈
            (handleTool hostUp bridge claims toolName argsTabId sid now).forwarded →
          x = some t)) ∧
    (∀ t res, argsTabId = none → hostUp = true →
        bridge "get_active_tab" none = Except.ok res → res.tabId? = some t → ¬ t = 0 →
        (handleTool hostUp bridge claims toolName argsTabId sid now).resolvedTab = some t ∧
        (∀ x, (toolName, x) ∈
            (handleTool hostUp bridge claims toolName argsTabId sid now).forwarded →
          x = some t)) ∧
    ((handleTool hostUp bridge claims toolName argsTabId sid now).result =
        Except.error "Could not determine active tab" →
      argsTabId = none ∧ hostUp = true ∧
      ∃ res, bridge "get_active_tab" none = Except.ok res ∧
        (res.tabId? = none ∨ res.tabId? = some 0)) := by
  have hnact : ¬ toolName = "get_active_tab" := by
    intro hh
    rw [hh] at hw
    simp [wantsTab] at hw
  refine ⟨?_, ?_, ?_⟩
  · rintro t rfl
    have hred : handleTool hostUp bridge claims toolName (some t) sid now =
        afterResolve hostUp bridge claims toolName t sid now [] := by
      simp [handleTool, hname, hw]
    rw [hred]
    refine ⟨afterResolve_resolvedTab hostUp bridge claims toolName t sid now [], ?_⟩
    intro x hx
    rcases afterResolve_forwarded hostUp bridge claims toolName t sid now [] with hf | hf
    · rw [hf] at hx
      cases hx
    · rw [hf] at hx
      simpa using hx
  · rintro t res rfl hh hbr hres ht0
    have hred : handleTool hostUp bridge claims toolName none sid now =
        afterResolve hostUp bridge claims toolName t sid now [("get_active_tab", none)] := by
      subst hh
      simp [handleTool, hname, hw, resolveActiveTab, hbr, hres, ht0]
    rw [hred]
    refine ⟨afterResolve_resolvedTab hostUp bridge claims toolName t sid now _, ?_⟩
    intro x hx
    rcases afterResolve_forwarded hostUp bridge claims toolName t sid now
        [("get_active_tab", none)] with hf | hf
    · rw [hf] at hx
      simp at hx
      exact absurd hx.1 hnact
    · rw [hf] at hx
      simp at hx
      rcases hx with ⟨h1, _⟩ | h2
      · exact absurd h1 hnact
      · exact h2
  · intro hcnd
    cases hargs : argsTabId with
    | some t =>
        rw [hargs] at hcnd
        have hred : handleTool hostUp bridge claims toolName (some t) sid now =
            afterResolve hostUp bridge claims toolName t sid now [] := by
          simp [handleTool, hname, hw]
        rw [hred] at hcnd
        exact absurd hcnd
          (afterResolve_result_not_cnd hostUp bridge claims toolName t sid now [] hdist)
    | none =>
        rw [hargs] at hcnd
        refine ⟨rfl, ?_⟩
        cases hract : resolveActiveTab hostUp bridge with
        | mk r fwds =>
            cases r with
            | error e =>
                have hred : handleTool hostUp bridge claims toolName none sid now =
                    ⟨.error e, fwds, claims, none, none⟩ := by
                  simp [handleTool, hname, hw, hract]
                rw [hred] at hcnd
                injection hcnd with h1
                cases h1
                exact resolveActiveTab_error_cnd hostUp bridge fwds hdist hract
            | ok t =>
                have hred : handleTool hostUp bridge claims toolName none sid now =
                    afterResolve hostUp bridge claims toolName t sid now fwds := by
                  simp [handleTool, hname, hw, hract]
                rw [hred] at hcnd
                exact absurd hcnd
                  (afterResolve_result_not_cnd hostUp bridge claims toolName t sid now fwds hdist)

/-- Witness for c7_target_resolution: with a bridge reporting tab 9 as
active, a click with no explicit tab resolves to tab 9. -/
theorem c7_target_resolution_witness :
    (handleTool true bridgeActive9 [] "click" none (some "A") 4).resolvedTab = some 9 :=
  ((c7_target_resolution true bridgeActive9 [] "click" none (some "A") 4
      (by decide) (by decide)
      (by intro tl x; by_cases h : tl = "get_active_tab" <;> simp [bridgeActive9, h])).2.1
    9 ⟨some 9, 0⟩ rfl rfl (by decide) (by decide) (by decide)).1

/-- C5: claim_tab succeeds exactly when the tab is unclaimed, already
owned by the acting session, or force is set, overwriting the claim with
the acting session and a fresh timestamp; otherwise it fails with the
ownership-conflict error naming the current owner and the table is
unchanged; and a forced claim over a tab owned by someone else transfers
ownership, after which a check for the previous owner is denied naming
the new one. -/
theorem c5_claim_tab_semantics (claims : ClaimMap) (t : Int) (force : Bool)
    (sid : Option String) (now : Nat) :
    ((mapGet claims t = none ∨ (∃ c, mapGet claims t = some c ∧ c.sessionId = sid) ∨
        force = true) →
      claimTabOp claims (some t) force sid now = (.ok (), setClaim claims t sid now) ∧
      mapGet (claimTabOp claims (some t) force sid now).2 t = some ⟨sid, now⟩) ∧
    (∀ c, mapGet claims t = some c → ¬ c.sessionId = sid → force = false →
      claimTabOp claims (some t) force sid now =
        (.error (conflictMsg t c.sessionId), claims)) ∧
    (∀ owner other, mapGet claims t = some owner → ¬ owner.sessionId = other →
      checkClaim (claimTabOp claims (some t) true other now).2 t owner.sessionId =
        .error (conflictMsg t other)) := by
  refine ⟨?_, ?_, ?_⟩
  · intro h
    have hok : claimTabOp claims (some t) force sid now = (.ok (), setClaim claims t sid now) := by
      rcases h with hn | ⟨c, hc, hcs⟩ | hf
      · simp [claimTabOp, hn]
      · simp [claimTabOp, hc, hcs]
      · cases hget : mapGet claims t with
        | none => simp [claimTabOp, hget]
        | some c => simp [claimTabOp, hget, hf]
    refine ⟨hok, ?_⟩
    rw [hok]
    exact mapGet_mapSet_self claims t ⟨sid, now⟩
  · intro c hc hne hf
    simp [claimTabOp, hc, hne, hf]
  · intro owner other hget hne
    have hforce : claimTabOp claims (some t) true other now =
        (.ok (), setClaim claims t other now) := by
      cases hget2 : mapGet claims t <;> simp [claimTabOp, hget2]
    rw [hforce]
    simp [checkClaim, setClaim, mapGet_mapSet_self, Ne.symm hne]

/-- Witness for c5_claim_tab_semantics: a fresh claim succeeds, a
conflicting unforced claim fails naming the owner and changes nothing,
and a forced takeover by B leaves A denied. -/
theorem c5_claim_tab_semantics_witness :
    claimTabOp [] (some 3) false (some "A") 5 = (.ok (), setClaim [] 3 (some "A") 5) ∧
    claimTabOp [(7, ⟨some "A", 0⟩)] (some 7) false (some "B") 9 =
      (.error (conflictMsg 7 (some "A")), [(7, ⟨some "A", 0⟩)]) ∧
    checkClaim (claimTabOp [(7, ⟨some "A", 0⟩)] (some 7) true (some "B") 9).2 7 (some "A") =
      .error (conflictMsg 7 (some "B")) :=
  ⟨((c5_claim_tab_semantics [] 3 false (some "A") 5).1 (Or.inl (by decide))).1,
   (c5_claim_tab_semantics [(7, ⟨some "A", 0⟩)] 7 false (some "B") 9).2.1 ⟨some "A", 0⟩
      (by decide) (by decide) rfl,
   (c5_claim_tab_semantics [(7, ⟨some "A", 0⟩)] 7 true (some "B") 9).2.2 ⟨some "A", 0⟩
      (some "B") (by decide) (by decide)⟩

/-- C6: a tool call attempted while no bridge connection exists, or while
the bridge socket is destroyed, fails immediately with the distinct
bridge-offline error, and the pending-call table (entries, log and id
counter alike) is exactly as it was before the attempt. -/
theorem c6_offline_no_register (s : PendState) :
    tryRegister (hostConnected none) s = (.error hostOfflineMsg, s) ∧
    (∀ r : HostRef, r.destroyed = true →
      tryRegister (hostConnected (some r)) s = (.error hostOfflineMsg, s)) := by
  constructor
  · simp [tryRegister, hostConnected]
  · intro r hr
    simp [tryRegister, hostConnected, hr]

/-- Witness for c6_offline_no_register: a destroyed host socket at the
startup state registers nothing. -/
theorem c6_offline_no_register_witness :
    tryRegister (hostConnected (some ⟨true⟩)) pendStart = (.error hostOfflineMsg, pendStart) :=
  (c6_offline_no_register pendStart).2 ⟨true⟩ rfl

theorem pendStart_inv : PendInv pendStart := by
  refine ⟨List.nodup_nil, List.nodup_nil, ?_, ?_, ?_⟩ <;>
    intro i hi <;> simp [pendStart, pendLogIds] at hi

theorem map_fst_pair_const (l : List Nat) (d : PendOutcome) :
    List.map Prod.fst (l.map (fun i => (i, d))) = l := by
  induction l with
  | nil => rfl
  | cons x xs ih => simp [ih]

theorem pendInv_step (s : PendState) (e : PendEvent) (h : PendInv s) :
    PendInv (pendStep s e) := by
  obtain ⟨hnd, hlnd, hple, hlle, hdisj⟩ := h
  cases e with
  | register =>
      simp only [pendStep, PendInv, pendLogIds]
      refine ⟨?_, ?_, ?_, ?_, ?_⟩
      · refine List.Nodup.append hnd (List.nodup_singleton _) ?_
        intro a ha hb
        simp at hb
        subst hb
        exact absurd (hple _ ha) (by omega)
      · exact hlnd
      · intro i hi
        rcases List.mem_append.mp hi with hi | hi
        · exact le_trans (hple i hi) (Nat.le_succ _)
        · simp at hi
          omega
      · intro i hi
        exact le_trans (hlle i hi) (Nat.le_succ _)
      · intro i hi
        rcases List.mem_append.mp hi with hi | hi
        · exact hdisj i hi
        · simp at hi
          subst hi
          intro hlog
          exact absurd (hlle _ hlog) (by omega)
  | respond cid isError =>
      by_cases hm : cid ∈ s.pending
      · simp only [pendStep, hm, if_true, PendInv, pendLogIds]
        refine ⟨hnd.erase cid, ?_, ?_, ?_, ?_⟩
        · show (List.map Prod.fst (s.log ++ [(cid, _)])).Nodup
          rw [List.map_append]
          refine List.Nodup.append hlnd (List.nodup_singleton _) ?_
          intro a ha hb
          simp at hb
          subst hb
          exact hdisj a hm ha
        · intro i hi
          exact hple i (List.mem_of_mem_erase hi)
        · show ∀ i ∈ List.map Prod.fst (s.log ++ [(cid, _)]), i ≤ s.nextExtId
          rw [List.map_append]
          intro i hi
          rcases List.mem_append.mp hi with hi | hi
          · exact hlle i hi
          · simp at hi
            subst hi
            exact hple i hm
        · intro i hi
          have hi2 := List.mem_of_mem_erase hi
          have hne : i ≠ cid := (hnd.mem_erase_iff.mp hi).1
          show i ∉ List.map Prod.fst (s.log ++ [(cid, _)])
          rw [List.map_append]
          intro hmem
          rcases List.mem_append.mp hmem with hl | hl
          · exact hdisj i hi2 hl
          · simp at hl
            exact hne hl
      · simp only [pendStep, hm, if_false]
        exact ⟨hnd, hlnd, hple, hlle, hdisj⟩
  | timeoutFire cid =>
      by_cases hm : cid ∈ s.pending
      · simp only [pendStep, hm, if_true, PendInv, pendLogIds]
        refine ⟨hnd.erase cid, ?_, ?_, ?_, ?_⟩
        · show (List.map Prod.fst (s.log ++ [(cid, _)])).Nodup
          rw [List.map_append]
          refine List.Nodup.append hlnd (List.nodup_singleton _) ?_
          intro a ha hb
          simp at hb
          subst hb
          exact hdisj a hm ha
        · intro i hi
          exact hple i (List.mem_of_mem_erase hi)
        · show ∀ i ∈ List.map Prod.fst (s.log ++ [(cid, _)]), i ≤ s.nextExtId
          rw [List.map_append]
          intro i hi
          rcases List.mem_append.mp hi with hi | hi
          · exact hlle i hi
          · simp at hi
            subst hi
            exact hple i hm
        · intro i hi
          have hi2 := List.mem_of_mem_erase hi
          have hne : i ≠ cid := (hnd.mem_erase_iff.mp hi).1
          show i ∉ List.map Prod.fst (s.log ++ [(cid, _)])
          rw [List.map_append]
          intro hmem
          rcases List.mem_append.mp hmem with hl | hl
          · exact hdisj i hi2 hl
          · simp at hl
            exact hne hl
      · simp only [pendStep, hm, if_false]
        exact ⟨hnd, hlnd, hple, hlle, hdisj⟩
  | hostClose =>
      simp only [pendStep, PendInv, pendLogIds]
      have hmap :
          List.map Prod.fst (s.log ++ s.pending.map (fun i => (i, PendOutcome.disconnected)))
            = pendLogIds s ++ s.pending := by
        rw [List.map_append, map_fst_pair_const]
        rfl
      refine ⟨List.nodup_nil, ?_, ?_, ?_, ?_⟩
      · show (List.map Prod.fst (s.log ++ _)).Nodup
        rw [hmap]
        exact List.Nodup.append hlnd hnd (fun a ha hb => hdisj a hb ha)
      · intro i hi
        simp at hi
      · show ∀ i ∈ List.map Prod.fst (s.log ++ _), i ≤ s.nextExtId
        rw [hmap]
        intro i hi
        rcases List.mem_append.mp hi with hi | hi
        · exact hlle i hi
        · exact hple i hi
      · intro i hi
        simp at hi

theorem pendInv_foldl (evs : List PendEvent) (s : PendState) (h : PendInv s) :
    PendInv (evs.foldl pendStep s) := by
  induction evs generalizing s with
  | nil => simpa using h
  | cons e rest ih => exact ih _ (pendInv_step s e h)

/-- C2: along every event sequence the broker can execute from startup,
each registered call identifier has its stored callback pair invoked at
most once (the invocation log of any reachable state holds distinct
ids, resolution removing the entry before the callback fires), and a
tool_response whose id has no pending entry leaves the state entirely
unchanged — a no-op, not an error. -/
theorem c2_pending_exactly_once (evs : List PendEvent) :
    (pendLogIds (evs.foldl pendStep pendStart)).Nodup ∧
    (∀ (s : PendState) (id : Nat) (isError : Bool), id ∉ s.pending →
      pendStep s (.respond id isError) = s) := by
  constructor
  · exact (pendInv_foldl evs pendStart pendStart_inv).2.1
  · intro s id isError hmem
    simp [pendStep, hmem]

/-- Witness for c2_pending_exactly_once: a register followed by two
responses for the same id logs it once, and a duplicate response at a
state with nothing pending is the identity. -/
theorem c2_pending_exactly_once_witness :
    (pendLogIds ([PendEvent.register, PendEvent.respond 1 false,
        PendEvent.respond 1 true].foldl pendStep pendStart)).Nodup ∧
    pendStep ⟨1, [], [(1, PendOutcome.resolved)]⟩ (PendEvent.respond 1 true) =
      ⟨1, [], [(1, PendOutcome.resolved)]⟩ :=
  ⟨(c2_pending_exactly_once [PendEvent.register, PendEvent.respond 1 false,
      PendEvent.respond 1 true]).1,
   (c2_pending_exactly_once []).2 ⟨1, [], [(1, PendOutcome.resolved)]⟩ 1 true (by decide)⟩

/-- C4 counterexample: the close handler releases the claims of the
closing connection's declared session id whatever its role, so a bridge
whose handshake declared the session id A does change the ownership table
on disconnect: A's claim on tab 1 is released. -/
theorem c4_counterexample :
    ¬ (onSocketClose ⟨"native-host", some "A"⟩ true [] [(1, ⟨some "A", 0⟩)]).claimsAfter =
        [(1, ⟨some "A", 0⟩)] ∧
    (onSocketClose ⟨"native-host", some "A"⟩ true [] [(1, ⟨some "A", 0⟩)]).claimsAfter = [] := by
  refine ⟨?_, ?_⟩ <;> decide

/-- C4 (amended): when the authoritative bridge socket closes, every
entry then in the pending-call table is rejected with the
bridge-disconnected error and the table is empty afterward; the ownership
table is left unchanged provided the bridge connection declared no truthy
session identifier at its handshake (otherwise the claims of that
declared session are released). -/
theorem c4_bridge_close (client : ClientInfo) (pending : List Nat) (claims : ClaimMap)
    (hrole : client.role = "native-host") :
    (onSocketClose client true pending claims).pendingAfter = [] ∧
    (onSocketClose client true pending claims).rejected =
      pending.map (fun i => (i, "Native host disconnected")) ∧
    (client.sessionId = none ∨ client.sessionId = some "" →
      (onSocketClose client true pending claims).claimsAfter = claims) := by
  refine ⟨?_, ?_, ?_⟩
  · simp [onSocketClose, hrole]
  · simp [onSocketClose, hrole]
  · intro h
    rcases h with h | h <;> simp [onSocketClose, hrole, h]

/-- Witness for c4_bridge_close: a bridge with no handshake session id
closing with calls 5 and 6 pending rejects both, empties the table and
leaves A's claim in place. -/
theorem c4_bridge_close_witness :
    (onSocketClose ⟨"native-host", none⟩ true [5, 6] [(1, ⟨some "A", 0⟩)]).pendingAfter = [] ∧
    (onSocketClose ⟨"native-host", none⟩ true [5, 6] [(1, ⟨some "A", 0⟩)]).rejected =
      [(5, "Native host disconnected"), (6, "Native host disconnected")] ∧
    (onSocketClose ⟨"native-host", none⟩ true [5, 6] [(1, ⟨some "A", 0⟩)]).claimsAfter =
      [(1, ⟨some "A", 0⟩)] :=
  ⟨(c4_bridge_close ⟨"native-host", none⟩ [5, 6] [(1, ⟨some "A", 0⟩)] rfl).1,
   (c4_bridge_close ⟨"native-host", none⟩ [5, 6] [(1, ⟨some "A", 0⟩)] rfl).2.1,
   (c4_bridge_close ⟨"native-host", none⟩ [5, 6] [(1, ⟨some "A", 0⟩)] rfl).2.2 (Or.inl rfl)⟩

theorem handleRequest_shape (hostUp : Bool) (bridge : Bridge) (claims : ClaimMap)
    (clientSid : Option String) (msg : RequestMsg) (now : Nat) (rid : Int)
    (hid : msg.id? = some (JVal.num rid)) :
    ∃ ok err, (handleRequest hostUp bridge claims clientSid msg now).1 = [⟨rid, ok, err⟩] := by
  unfold handleRequest
  rw [hid]
  by_cases h1 : msg.op = some "status"
  · exact ⟨true, none, by simp [h1]⟩
  by_cases h2 : msg.op = some "list_claims"
  · exact ⟨true, none, by simp [h1, h2]⟩
  by_cases h3 : msg.op = some "claim_tab"
  · rcases hct : claimTabOp claims msg.tabId? msg.force
        (effectiveSession msg.sessionId? clientSid) now with ⟨r, m⟩
    cases r with
    | ok u => exact ⟨true, none, by simp [h1, h2, h3, hct]⟩
    | error e => exact ⟨false, some e, by simp [h1, h2, h3, hct]⟩
  by_cases h4 : msg.op = some "release_tab"
  · rcases hrt : releaseTabOp claims msg.tabId?
        (effectiveSession msg.sessionId? clientSid) with ⟨r, m⟩
    cases r with
    | ok u => exact ⟨true, none, by simp [h1, h2, h3, h4, hrt]⟩
    | error e => exact ⟨false, some e, by simp [h1, h2, h3, h4, hrt]⟩
  by_cases h5 : msg.op = some "tool"
  · rcases hht : handleTool hostUp bridge claims
        (match msg.tool with | some t => t | none => "") msg.argsTabId
        (effectiveSession msg.sessionId? clientSid) now with ⟨r, fwd, cl, rt, ut⟩
    cases r with
    | ok u => exact ⟨true, none, by simp [h1, h2, h3, h4, h5, hht]⟩
    | error e => exact ⟨false, some e, by simp [h1, h2, h3, h4, h5, hht]⟩
  · exact ⟨false, some ("Unknown op: " ++ opName msg.op), by simp [h1, h2, h3, h4, h5]⟩

/-- C8 counterexample: a message of type request whose id field holds a
string rather than a number is not dispatched at all and receives zero
responses — not exactly one response with the matching id. -/
theorem c8_counterexample :
    (handleRequest true bridgeEcho3 [] none
        ⟨some (JVal.str "x"), some "status", none, false, none, none, none⟩ 0).1 = [] := by
  decide

/-- C8 (amended): every request message carrying a numeric id receives
exactly one response, and it echoes that id; an op outside the five
recognized ones is rejected synchronously with the unknown-op protocol
error, as is a missing op (rendered undefined). -/
theorem c8_one_response (hostUp : Bool) (bridge : Bridge) (claims : ClaimMap)
    (clientSid : Option String) (msg : RequestMsg) (now : Nat) (rid : Int)
    (hid : msg.id? = some (JVal.num rid)) :
    (handleRequest hostUp bridge claims clientSid msg now).1.length = 1 ∧
    (∀ r ∈ (handleRequest hostUp bridge claims clientSid msg now).1, r.id = rid) ∧
    (∀ opv, msg.op = some opv →
      ¬ opv ∈ (["status", "list_claims", "claim_tab", "release_tab", "tool"] : List String) →
      (handleRequest hostUp bridge claims clientSid msg now).1 =
        [⟨rid, false, some ("Unknown op: " ++ opv)⟩]) ∧
    (msg.op = none →
      (handleRequest hostUp bridge claims clientSid msg now).1 =
        [⟨rid, false, some ("Unknown op: undefined")⟩]) := by
  obtain ⟨ok, err, hsh⟩ := handleRequest_shape hostUp bridge claims clientSid msg now rid hid
  refine ⟨by rw [hsh]; rfl, ?_, ?_, ?_⟩
  · intro r hr
    rw [hsh] at hr
    simp at hr
    rw [hr]
  · intro opv hop hnot
    simp at hnot
    obtain ⟨n1, n2, n3, n4, n5⟩ := hnot
    unfold handleRequest
    rw [hid]
    simp [hop, n1, n2, n3, n4, n5, opName]
  · intro hop
    unfold handleRequest
    rw [hid]
    simp [hop, opName]

/-- Witness for c8_one_response: an unrecognized op with numeric id 4 is
answered by exactly the protocol-error response echoing 4. -/
theorem c8_one_response_witness :
    (handleRequest true bridgeEcho3 [] none
        ⟨some (JVal.num 4), some "bogus", none, false, none, none, none⟩ 0).1 =
      [⟨4, false, some ("Unknown op: " ++ "bogus")⟩] :=
  (c8_one_response true bridgeEcho3 [] none
      ⟨some (JVal.num 4), some "bogus", none, false, none, none, none⟩ 0 4 rfl).2.2.1
    "bogus" rfl (by decide)

/-- C10 counterexample: a request whose sessionId field is present but
holds the empty string acts as the handshake session (the or-operator
treats the empty string as absent), so claim_tab attributes the claim to
the handshake identity rather than to the named (empty) one. -/
theorem c10_counterexample :
    effectiveSession (some "") (some "H") = some "H" ∧
    ¬ effectiveSession (some "") (some "H") = some "" ∧
    (handleRequest true bridgeEcho3 [] (some "H")
        ⟨some (JVal.num 1), some "claim_tab", some 7, false, some "", none, none⟩ 3).2 =
      [(7, ⟨some "H", 3⟩)] := by
  refine ⟨rfl, by decide, by decide⟩

/-- C10 (amended): the acting session identity of claim_tab, release_tab
and tool requests is the message's sessionId field when present and
non-empty, and the handshake identity when the field is absent (or
empty); the broker never checks the field against the handshake identity
— a request naming a non-empty session behaves identically under any
handshake identity, and claim_tab records the named session. -/
theorem c10_session_attribution (s : String) (hs : ¬ s = "") :
    (∀ h, effectiveSession (some s) h = some s) ∧
    (∀ h, effectiveSession none h = h) ∧
    (∀ hostUp bridge claims h1 h2 msg now, msg.sessionId? = some s →
      handleRequest hostUp bridge claims h1 msg now =
        handleRequest hostUp bridge claims h2 msg now) ∧
    (∀ hostUp bridge claims h now rid tb force tl ta,
      (handleRequest hostUp bridge claims h
          ⟨some (JVal.num rid), some "claim_tab", tb, force, some s, tl, ta⟩ now).2 =
        (claimTabOp claims tb force (some s) now).2) := by
  have heff : ∀ h, effectiveSession (some s) h = some s := by
    intro h
    simp [effectiveSession, hs]
  refine ⟨heff, fun h => rfl, ?_, ?_⟩
  · intro hostUp bridge claims h1 h2 msg now hsid
    unfold handleRequest
    simp only [hsid, heff]
  · intro hostUp bridge claims h now rid tb force tl ta
    unfold handleRequest
    simp only [heff]
    rcases hct : claimTabOp claims tb force (some s) now with ⟨r, m⟩
    cases r with
    | ok u => simp [hct]
    | error e => simp [hct]

/-- Witness for c10_session_attribution: a claim_tab naming session B on
a connection whose handshake identity is H records B. -/
theorem c10_session_attribution_witness :
    (handleRequest true bridgeEcho3 [] (some "H")
        ⟨some (JVal.num 1), some "claim_tab", some 7, false, some "B", none, none⟩ 3).2 =
      (claimTabOp [] (some 7) false (some "B") 3).2 :=
  (c10_session_attribution "B" (by decide)).2.2.2 true bridgeEcho3 [] (some "H") 3 1
    (some 7) false none none

theorem splitLines_buf_no_newline (l : List Char) : '\n' ∉ (splitLines l).2 := by
  induction l with
  | nil => simp [splitLines]
  | cons c rest ih =>
      by_cases hc : c = '\n'
      · simpa [splitLines, hc] using ih
      · cases hA : splitLines rest with
        | mk ls buf =>
            rw [hA] at ih
            cases ls with
            | nil =>
                simp only [splitLines, hc, if_false, hA]
                intro hmem
                rcases List.mem_cons.mp hmem with h1 | h1
                · exact hc h1.symm
                · exact ih h1
            | cons l2 ls2 => simpa [splitLines, hc, hA] using ih

theorem splitLines_no_newline (l : List Char) (h : '\n' ∉ l) : splitLines l = ([], l) := by
  induction l with
  | nil => rfl
  | cons c rest ih =>
      have hc : ¬ c = '\n' := by
        intro hh
        exact h (by simp [hh])
      have hrest : '\n' ∉ rest := fun hh => h (List.mem_cons_of_mem c hh)
      simp [splitLines, hc, ih hrest]

theorem splitLines_append (a b : List Char) :
    splitLines (a ++ b) =
      ((splitLines a).1 ++ (splitLines ((splitLines a).2 ++ b)).1,
        (splitLines ((splitLines a).2 ++ b)).2) := by
  induction a with
  | nil => simp [splitLines]
  | cons c a ih =>
      by_cases hc : c = '\n'
      · subst hc
        simp [splitLines, ih, List.cons_append]
      · cases hA : splitLines a with
        | mk A1 A2 =>
            cases A1 with
            | nil =>
                cases hB : splitLines (A2 ++ b) with
                | mk B1 B2 =>
                    cases B1 with
                    | nil => simp [splitLines, ih, hA, hB, hc, List.cons_append]
                    | cons bl bls => simp [splitLines, ih, hA, hB, hc, List.cons_append]
            | cons al als => simp [splitLines, ih, hA, hc, List.cons_append]

theorem feedChunk_eq {α : Type} (parse : List Char → Option α) (buf chunk : List Char) :
    feedChunk parse buf chunk =
      ((splitLines (buf ++ chunk)).2, emitted parse (buf ++ chunk)) := rfl

theorem emitted_append {α : Type} (parse : List Char → Option α) (a b : List Char) :
    emitted parse (a ++ b) = emitted parse a ++ emitted parse ((splitLines a).2 ++ b) := by
  unfold emitted
  rw [splitLines_append a b]
  simp [List.filter_append, List.filterMap_append]

theorem feedAll_go {α : Type} (parse : List Char → Option α) (chunks : List (List Char))
    (buf : List Char) (acc : List α) (hbuf : '\n' ∉ buf) :
    (chunks.foldl (fun acc2 chunk =>
        ((feedChunk parse acc2.1 chunk).1, acc2.2 ++ (feedChunk parse acc2.1 chunk).2))
      (buf, acc)).2 = acc ++ emitted parse (buf ++ chunks.flatten) := by
  induction chunks generalizing buf acc with
  | nil =>
      simp [emitted, splitLines_no_newline buf hbuf]
  | cons chunk rest ih =>
      simp only [List.foldl_cons]
      rw [ih ((feedChunk parse buf chunk).1) (acc ++ (feedChunk parse buf chunk).2)
        (splitLines_buf_no_newline (buf ++ chunk))]
      simp only [feedChunk_eq]
      have h2 : buf ++ (chunk :: rest).flatten = (buf ++ chunk) ++ rest.flatten := by
        simp [List.flatten_cons, List.append_assoc]
      rw [h2, emitted_append parse (buf ++ chunk) rest.flatten, ← List.append_assoc]

/-- C9: the newline-delimited JSON reader is a total function of the
chunk sequence (it never throws) and delivers exactly the complete lines
of the stream that are non-blank and accepted by JSON.parse, in stream
order, however the input is cut into chunks: a malformed or blank line is
discarded and every subsequent well-formed line is still delivered. -/
theorem c9_line_reader {α : Type} (parse : List Char → Option α) (chunks : List (List Char)) :
    feedAll parse chunks = emitted parse chunks.flatten := by
  unfold feedAll
  rw [feedAll_go parse chunks [] [] (by simp)]
  simp

end Broker
